import Mathlib

/-!
Verification of `langchain_weaviate/vectorstores.py` against its
natural-language specification.

The Python module is shallowly embedded: dictionaries become association
lists over an inductive value type `MValue`; raised exceptions become an
explicit `PyErr` sum propagated through `Except`; the external Weaviate
client is an oracle `Engine : EngineCall -> Except String QueryResult`
whose issued calls are recorded in a trace, so that "no engine query is
issued" is expressible as an empty trace.
-/

namespace LWV

/-- Values stored in Python dictionaries of the adapter: strings, numbers
(modelled as rationals), booleans, dense vectors and ISO-rendered datetimes. -/
inductive MValue where
  | s (v : String)
  | num (v : ℚ)
  | b (v : Bool)
  | vecQ (v : List ℚ)
  | dtime (iso : String)
deriving DecidableEq, Repr

/-- Python dictionary with string keys, as an association list (keys unique
in every dictionary the code builds). -/
abbrev Dict := List (String × MValue)

/-- First-match lookup in an association list (Python `d[k]` / `d.get(k)`). -/
def dlookup : Dict → String → Option MValue
  | [], _ => none
  | (k2, v) :: rest, k => if k2 = k then some v else dlookup rest k

/-- Remove every entry with the given key (Python `d.pop(k)` on unique keys). -/
def derase (m : Dict) (k : String) : Dict :=
  m.filter (fun p => p.1 != k)

/-- Python dict merge \x7b**a, **b\x7d : entries of `b` win over entries of `a`. -/
def dmerge (a b : Dict) : Dict :=
  a.filter (fun p => (dlookup b p.1).isNone) ++ b

/-- Exceptions the embedded code can raise. All errors raised by the module
itself are `ValueError`s carrying a message; `keyError`, `indexError`,
`assertionError` and `typeError` model the corresponding Python built-ins;
`engineExc` models an engine exception escaping uncaught. -/
inductive PyErr where
  | valueError (msg : String)
  | keyError (key : String)
  | indexError
  | assertionError (msg : String)
  | typeError
  | engineExc (msg : String)
deriving DecidableEq, Repr

/-- Error-propagating map over a list, failing at the first failing element,
exactly like the Python `for` loops of the module. -/
def exMapM (f : α → Except PyErr β) : List α → Except PyErr (List β)
  | [] => .ok []
  | x :: xs =>
    match f x with
    | .error e => .error e
    | .ok y =>
      match exMapM f xs with
      | .error e => .error e
      | .ok ys => .ok (y :: ys)

/-- Embeddings capability (`langchain_core.embeddings.Embeddings`): the
external embedding provider. `embed_query` receives the raw `query`
argument, which the dispatcher may pass as `None`. -/
structure Embedder where
  embed_query : Option String → List ℚ
  embed_documents : List String → List (List ℚ)

/-- State of a `WeaviateVectorStore` relevant to the verified operations:
`_index_name`, `_text_key`, `_embedding` and the cached
`_multi_tenancy_enabled` flag. -/
structure Store where
  index_name : String
  text_key : String
  embedding : Option Embedder
  mt : Bool

/-- Engine metadata attached to a returned object
(`weaviate` `MetadataReturn`): fixed field set, each possibly `None`. -/
structure MetadataReturn where
  creation_time : Option MValue := none
  last_update_time : Option MValue := none
  distance : Option MValue := none
  certainty : Option MValue := none
  score : Option MValue := none
  explain_score : Option MValue := none
  is_consistent : Option MValue := none
  rerank_score : Option MValue := none
deriving DecidableEq, Repr

/-- Field names of `MetadataReturn`, in `__dict__` iteration order. -/
def metaFieldNames : List String :=
  ["creation_time", "last_update_time", "distance", "certainty",
   "score", "explain_score", "is_consistent", "rerank_score"]

/-- The `(name, value)` pairs of `obj.metadata.__dict__.items()`. -/
def metaItems (m : MetadataReturn) : List (String × Option MValue) :=
  [("creation_time", m.creation_time), ("last_update_time", m.last_update_time),
   ("distance", m.distance), ("certainty", m.certainty),
   ("score", m.score), ("explain_score", m.explain_score),
   ("is_consistent", m.is_consistent), ("rerank_score", m.rerank_score)]

/-- The dictionary comprehension of `_perform_search`: metadata fields whose
value is not `None`. -/
def filteredMeta (m : MetadataReturn) : Dict :=
  (metaItems m).filterMap (fun p => p.2.map (fun v => (p.1, v)))

/-- Engine-returned object: `properties`, `metadata`, the `"default"` named
vector when present, and the object uuid. -/
structure EngineObject where
  properties : Dict
  metadata : MetadataReturn
  vector : Option (List ℚ)
  uuid : String
deriving DecidableEq, Repr

/-- Result of an engine query. -/
structure QueryResult where
  objects : List EngineObject
deriving DecidableEq, Repr

/-- Keyword arguments of `_perform_search` that the module inspects or
fills in before forwarding them to the engine. -/
structure Kwargs where
  return_properties : Option (List String) := none
  return_uuids : Bool := false
  include_vector : Bool := false
  near_vector : Option (List ℚ) := none
deriving DecidableEq, Repr

/-- One call issued to the Weaviate client, with the arguments the module
passes (`near_vector` and `include_vector` travel inside the kwargs). -/
inductive EngineCall where
  | hybrid (query : Option String) (vector : Option (List ℚ)) (limit : Nat) (kwargs : Kwargs)
  | nearVector (limit : Nat) (kwargs : Kwargs)
  | nearText (query : Option String) (limit : Nat) (kwargs : Kwargs)
  | deleteMany (ids : List String)
deriving DecidableEq, Repr

/-- The external Weaviate client: every query either returns a result or
raises a `WeaviateQueryException` carrying a message. -/
def Engine : Type := EngineCall → Except String QueryResult

/-- The `search_method` argument; `other` models a string outside the
`Literal` domain, which Python does not enforce. -/
inductive SearchMethod where
  | hybrid
  | near_vector
  | near_text
  | other (s : String)
deriving DecidableEq, Repr

/-- Rendering of a `search_method` value inside the error f-string. -/
def SearchMethod.name : SearchMethod → String
  | .hybrid => "hybrid"
  | .near_vector => "near_vector"
  | .near_text => "near_text"
  | .other s => s

/-- Python `str()` of an `MValue`. -/
def pyStrM : MValue → String
  | .s v => v
  | .num q => toString q
  | .b true => "True"
  | .b false => "False"
  | .vecQ v => toString v
  | .dtime iso => iso

/-- Python `str()` of an optional value (`None` prints as "None"). -/
def pyStrOpt : Option MValue → String
  | none => "None"
  | some v => pyStrM v

/-- Normalized search output: a bare `Document`, or a `(Document, score)`
pair when `return_score` was requested. -/
structure Doc where
  page_content : MValue
  metadata : Dict
deriving DecidableEq, Repr

inductive SearchOut where
  | doc (d : Doc)
  | scored (d : Doc) (score : String)
deriving DecidableEq, Repr

/-- Message of the pre-flight embedding guard of `_perform_search`. -/
def embGuardMsg : String :=
  "_embedding cannot be None for similarity_search if search_method is not near_text"

/-- Message raised when a tenant is supplied while multi-tenancy is off. -/
def tenantOffMsg : String :=
  "Cannot use tenant context when multi-tenancy is not enabled"

/-- Message raised when no tenant is supplied while multi-tenancy is on. -/
def tenantOnMsg : String :=
  "Must use tenant context when multi-tenancy is enabled"

/-- The validation of `_tenant_context` (lines 543-549): checks performed
before any engine handle is yielded; `none` means the context is entered. -/
def tenantCheck (mt : Bool) (tenant : Option String) : Option PyErr :=
  if tenant.isSome ∧ mt = false then some (.valueError tenantOffMsg)
  else if tenant.isNone ∧ mt = true then some (.valueError tenantOnMsg)
  else none

/-- The `return_properties` adjustment of `_perform_search` (lines 244-248):
append the text key when the caller restricted the returned properties. -/
def adjustReturnProps (tk : String) (kwargs : Kwargs) : Kwargs :=
  match kwargs.return_properties with
  | some rp => if tk ∈ rp then kwargs else { kwargs with return_properties := some (rp ++ [tk]) }
  | none => kwargs

/-- Result-normalization loop body of `_perform_search` (lines 282-300):
pop the text key from the properties (KeyError when absent), keep the
non-null metadata fields, merge properties, metadata, the optional vector
and the optional uuid, and attach the concatenated score string when
`return_score` is set. -/
def normalizeObj (tk : String) (return_uuids return_score : Bool) (obj : EngineObject) :
    Except PyErr SearchOut :=
  match dlookup obj.properties tk with
  | none => .error (.keyError tk)
  | some tv =>
    let props := derase obj.properties tk
    let fm := filteredMeta obj.metadata
    let vecEntry : Dict := match obj.vector with
      | some v => [("vector", MValue.vecQ v)]
      | none => []
    let uuidEntry : Dict := if return_uuids then [("uuid", MValue.s obj.uuid)] else []
    let merged := dmerge (dmerge (dmerge props fm) vecEntry) uuidEntry
    let d : Doc := ⟨tv, merged⟩
    if return_score then
      .ok (.scored d (pyStrOpt obj.metadata.score ++ ": " ++ pyStrOpt obj.metadata.explain_score))
    else
      .ok (.doc d)

/-- Construction of the engine call inside the `try` block of
`_perform_search` (lines 254-277). In the hybrid branch with an embedding
provider, the vector derives from the original `query` and a supplied
`keyword_query` replaces the text portion; the no-provider hybrid branch
omits the vector; an unknown method raises `ValueError` (uncaught: the
`except` clause only catches the engine exception). -/
def dispatchCall (store : Store) (query : Option String) (k : Nat)
    (keyword_query : Option String) (search_method : SearchMethod) (kwargs : Kwargs) :
    Except PyErr EngineCall :=
  match search_method with
  | .hybrid =>
    match store.embedding with
    | some emb =>
      let v := emb.embed_query query
      let q := match keyword_query with
        | some kq => some kq
        | none => query
      .ok (.hybrid q (some v) k kwargs)
    | none => .ok (.hybrid query none k kwargs)
  | .near_vector => .ok (.nearVector k kwargs)
  | .near_text => .ok (.nearText query k kwargs)
  | .other s => .error (.valueError ("Invalid search method: " ++ s))

/-- Embedding of `_perform_search` (lines 203-302). Returns the Python
result (or the raised exception) together with the list of engine queries
actually issued. -/
def perform_search (store : Store) (engine : Engine) (query : Option String) (k : Nat)
    (keyword_query : Option String) (return_score : Bool) (search_method : SearchMethod)
    (tenant : Option String) (kwargs : Kwargs) :
    Except PyErr (List SearchOut) × List EngineCall :=
  if search_method ≠ SearchMethod.near_text ∧ store.embedding.isNone then
    (.error (.valueError embGuardMsg), [])
  else
    let kwargs1 := adjustReturnProps store.text_key kwargs
    let ru := kwargs1.return_uuids
    let kwargs2 := { kwargs1 with return_uuids := false }
    match tenantCheck store.mt tenant with
    | some e => (.error e, [])
    | none =>
      match dispatchCall store query k keyword_query search_method kwargs2 with
      | .error e => (.error e, [])
      | .ok call =>
        match engine call with
        | .error msg => (.error (.valueError ("Error during query: " ++ msg)), [call])
        | .ok res =>
          match exMapM (normalizeObj store.text_key ru return_score) res.objects with
          | .error e => (.error e, [call])
          | .ok outs => (.ok outs, [call])

/-- Embedding of `similarity_search` (lines 304-322): pops `search_method`
from the kwargs (default hybrid) and forwards to `_perform_search`. -/
def similarity_search (store : Store) (engine : Engine) (query : String) (k : Nat)
    (keyword_query : Option String) (search_method : SearchMethod)
    (tenant : Option String) (kwargs : Kwargs) :
    Except PyErr (List SearchOut) × List EngineCall :=
  perform_search store engine (some query) k keyword_query false search_method tenant kwargs

/-- Embedding of `similarity_search_by_vector` (lines 324-335): forwards to
`_perform_search` with `query=None`, the caller vector in the kwargs and
`search_method="near_vector"`. -/
def similarity_search_by_vector (store : Store) (engine : Engine) (embedding : List ℚ)
    (k : Nat) (tenant : Option String) (kwargs : Kwargs) :
    Except PyErr (List SearchOut) × List EngineCall :=
  perform_search store engine none k none false .near_vector tenant
    { kwargs with near_vector := some embedding }

/-- Embedding of `similarity_search_with_score` (lines 422-433): forwards
with `return_score=True`. -/
def similarity_search_with_score (store : Store) (engine : Engine) (query : String)
    (k : Nat) (search_method : SearchMethod) (tenant : Option String) (kwargs : Kwargs) :
    Except PyErr (List SearchOut) × List EngineCall :=
  perform_search store engine (some query) k none true search_method tenant kwargs

/-- Embedding of `delete` (lines 503-522): `ValueError` when no ids are
given, then the tenant-context checks, then one `delete_many` call (whose
engine failure is not caught by this method). -/
def delete (store : Store) (engine : Engine) (ids : Option (List String))
    (tenant : Option String) : Except PyErr Unit × List EngineCall :=
  match ids with
  | none => (.error (.valueError "No ids provided to delete."), [])
  | some l =>
    match tenantCheck store.mt tenant with
    | some e => (.error e, [])
    | none =>
      match engine (.deleteMany l) with
      | .error msg => (.error (.engineExc msg), [.deleteMany l])
      | .ok _ => (.ok (), [.deleteMany l])

/-- Embedding of `_default_score_normalizer` (lines 57-62) over the reals:
the logistic transform with the argument clamped to `[-709, 709]`
(`np.clip(val, -709, 709)` is `min (max val (-709)) 709`). -/
noncomputable def _default_score_normalizer (val : ℝ) : ℝ :=
  1 - 1 / (1 + Real.exp (min (max val (-709)) 709))

/-- Python truthiness of an optional string (`if tenant:`). -/
def pythonTruthy : Option String → Bool
  | none => false
  | some s => s != ""

/-- Embedding of `_json_serializable` (lines 65-68): datetimes become their
ISO string, everything else passes through. -/
def _json_serializable : MValue → MValue
  | .dtime iso => .s iso
  | v => v

/-- Embedding of `_does_tenant_exist` (lines 524-531): asserts that
multi-tenancy is enabled, then consults the engine's tenant list. -/
def _does_tenant_exist (store : Store) (tenants : List String) (t : String) :
    Except PyErr Bool :=
  if store.mt = false then
    .error (.assertionError "Cannot check for tenant existence when multi-tenancy is not enabled")
  else
    .ok (t ∈ tenants)

/-- Object handed to `batch.add_object` (lines 183-189). -/
structure BatchObj where
  collection : String
  properties : Dict
  uuid : String
  vector : Option (List ℚ)
  tenant : Option String
deriving Repr

/-- The id `add_texts` uses for index `i`: the `uuids` kwarg wins, then the
`ids` kwarg, then a fresh uuid. Stated with `getD` so that it is total; it
agrees with the code whenever the kwarg lists cover index `i`. -/
def expectedId (uuids idsKw : Option (List String)) (fresh : Nat → String) (i : Nat) : String :=
  match uuids with
  | some us => us.getD i (fresh i)
  | none =>
    match idsKw with
    | some l => l.getD i (fresh i)
    | none => fresh i

/-- The metadata mapping attached to index `i` (`metadatas[i]` when
metadata is given, IndexError out of range, the empty mapping otherwise). -/
def mdAt (metadatas : Option (List Dict)) (i : Nat) : Except PyErr Dict :=
  match metadatas with
  | none => .ok []
  | some ms =>
    match ms.get? i with
    | some m => .ok m
    | none => .error .indexError

/-- The id used for index `i` (lines 177-181): fresh uuid, overridden by
the `uuids` kwarg, else by the `ids` kwarg, with Python's IndexError on a
short kwarg list. -/
def oidAt (uuids idsKw : Option (List String)) (fresh : Nat → String) (i : Nat) :
    Except PyErr String :=
  match uuids with
  | some us =>
    match us.get? i with
    | some u => .ok u
    | none => .error .indexError
  | none =>
    match idsKw with
    | some l =>
      match l.get? i with
      | some u => .ok u
      | none => .error .indexError
    | none => .ok (fresh i)

/-- The vector for index `i` (line 187): `embeddings[i] if embeddings else
None` — an absent or empty (falsy) embeddings list yields no vector. -/
def vecAt (embs : Option (List (List ℚ))) (i : Nat) : Except PyErr (Option (List ℚ)) :=
  match embs with
  | none => .ok none
  | some es =>
    if es.isEmpty then .ok none
    else
      match es.get? i with
      | some v => .ok (some v)
      | none => .error .indexError

/-- Loop body of `add_texts` (lines 166-191), recursing over the texts with
the running `enumerate` index: build the properties dict (text key first,
then the serialized metadata entries), choose the id, attach the vector,
and collect the batch object and the id. -/
def addLoop (iname tk : String) (metadatas : Option (List Dict))
    (uuids idsKw : Option (List String)) (embs : Option (List (List ℚ)))
    (fresh : Nat → String) (tenant : Option String) :
    Nat → List String → Except PyErr (List BatchObj × List String)
  | _, [] => .ok ([], [])
  | i, t :: rest =>
    match mdAt metadatas i with
    | .error e => .error e
    | .ok md =>
      match oidAt uuids idsKw fresh i with
      | .error e => .error e
      | .ok oid =>
        match vecAt embs i with
        | .error e => .error e
        | .ok vec =>
          match addLoop iname tk metadatas uuids idsKw embs fresh tenant (i + 1) rest with
          | .error e => .error e
          | .ok (objs, ids) =>
            .ok (⟨iname,
              dmerge [(tk, MValue.s t)] (md.map (fun p => (p.1, _json_serializable p.2))),
              oid, vec, tenant⟩ :: objs, oid :: ids)

/-- Embedding of `add_texts` (lines 143-201). `tenants` is the engine's
tenant list, `fresh i` the i-th uuid drawn from `uuid4`, `failed_objects`
the contents of `client.batch.failed_objects` after the batch ran: the
code only logs them, so they do not influence the returned ids. Returns the
batch objects written and the id list. -/
def add_texts (store : Store) (tenants : List String) (texts : List String)
    (metadatas : Option (List Dict)) (tenant : Option String)
    (uuids idsKw : Option (List String)) (fresh : Nat → String)
    (failed_objects : List String) : Except PyErr (List BatchObj × List String) :=
  let pre : Except PyErr Unit :=
    if pythonTruthy tenant then
      match _does_tenant_exist store tenants (tenant.getD "") with
      | .error e => .error e
      | .ok _ => .ok ()
    else .ok ()
  match pre with
  | .error e => .error e
  | .ok _ =>
    let embs := store.embedding.map (fun e => e.embed_documents texts)
    let _ := failed_objects
    addLoop store.index_name store.text_key metadatas uuids idsKw embs fresh tenant 0 texts

/-- Dot product over the reals. -/
noncomputable def dotR : List ℝ → List ℝ → ℝ
  | a :: as2, b :: bs => a * b + dotR as2 bs
  | _, _ => 0

/-- Euclidean norm over the reals. -/
noncomputable def normR (a : List ℝ) : ℝ := Real.sqrt (dotR a a)

open Classical in
/-- Modelled from the spec: `cosine_similarity` used by
`utils.maximal_marginal_relevance`; `utils.py` is not part of the sources,
so this follows spec section 4.4: cosine similarity with zero-safe
normalization, a zero vector yielding similarity 0. -/
noncomputable def cosine_similarity (a b : List ℝ) : ℝ :=
  if normR a = 0 ∨ normR b = 0 then 0 else dotR a b / (normR a * normR b)

open Classical in
/-- Index of the maximal value of `f` on a list of candidate indices, ties
broken towards the earliest listed candidate. -/
noncomputable def argmaxBy (f : Nat → ℝ) : List Nat → Option Nat
  | [] => none
  | i :: is =>
    match argmaxBy f is with
    | none => some i
    | some j => if f i < f j then some j else some i

/-- Maximum similarity of candidate `i` to any already-selected candidate;
0 when nothing is selected yet. -/
noncomputable def maxSimToSelected (sim : Nat → Nat → ℝ) (selected : List Nat) (i : Nat) : ℝ :=
  selected.foldr (fun j acc => max (sim i j) acc) 0

/-- Modelled from the spec: the MMR selection loop of section 4.4 — repeat
until k are selected or candidates are exhausted; each round scores every
unselected candidate `lam * simToQuery i - (1-lam) * maxSimToSelected i`
and selects the highest scorer (earliest index on ties). -/
noncomputable def mmrLoop (simQ : Nat → ℝ) (sim : Nat → Nat → ℝ) (lam : ℝ) :
    Nat → List Nat → List Nat → List Nat
  | 0, _, selected => selected
  | fuel + 1, unselected, selected =>
    match argmaxBy (fun i => lam * simQ i - (1 - lam) * maxSimToSelected sim selected i) unselected with
    | none => selected
    | some j => mmrLoop simQ sim lam fuel (unselected.erase j) (selected ++ [j])

/-- Modelled from the spec: `utils.maximal_marginal_relevance` (imported at
line 27 but not among the sources), per spec section 4.4: select up to `k`
diverse candidate indices from `embedding_list` against `query_embedding`. -/
noncomputable def maximal_marginal_relevance (query_embedding : List ℝ)
    (embedding_list : List (List ℝ)) (lambda_mult : ℝ) (k : Nat) : List Nat :=
  mmrLoop (fun i => cosine_similarity query_embedding (embedding_list.getD i []))
    (fun i j => cosine_similarity (embedding_list.getD i []) (embedding_list.getD j []))
    lambda_mult k (List.range embedding_list.length) []

/-- Read `result.metadata["vector"]` (line 408): KeyError when absent, and
the value must be a dense vector. -/
def getVecQ (d : Doc) : Except PyErr (List ℚ) :=
  match dlookup d.metadata "vector" with
  | some (MValue.vecQ v) => .ok v
  | some _ => .error .typeError
  | none => .error (.keyError "vector")

/-- The per-selection step of lines 416-418: pop the reserved vector key
from the document's metadata (KeyError when absent) and rebuild the
document. -/
def popVector (d : Doc) : Except PyErr Doc :=
  match dlookup d.metadata "vector" with
  | none => .error (.keyError "vector")
  | some _ => .ok ⟨d.page_content, derase d.metadata "vector"⟩

/-- Results of the candidate fetch are plain documents
(`return_score=False`); anything else would make line 408 fail. -/
def asDoc : SearchOut → Except PyErr Doc
  | .doc d => .ok d
  | .scored _ _ => .error .typeError

/-- Embedding of `max_marginal_relevance_search_by_vector` (lines 373-420):
fetch `fetch_k` candidates by near-vector search with vectors included, run
MMR over their vectors against the query embedding, then strip the vector
key from each selected document. -/
noncomputable def max_marginal_relevance_search_by_vector (store : Store) (engine : Engine)
    (embedding : List ℚ) (k fetch_k : Nat) (lambda_mult : ℝ) (tenant : Option String)
    (kwargs : Kwargs) : Except PyErr (List Doc) × List EngineCall :=
  match perform_search store engine none fetch_k none false .near_vector tenant
      { kwargs with include_vector := true, near_vector := some embedding } with
  | (.error e, tr) => (.error e, tr)
  | (.ok outs, tr) =>
    let step : Except PyErr (List Doc) :=
      match exMapM asDoc outs with
      | .error e => .error e
      | .ok results =>
        match exMapM getVecQ results with
        | .error e => .error e
        | .ok embeddings =>
          let mmr_selected := maximal_marginal_relevance
            (embedding.map (fun q => (q : ℝ)))
            (embeddings.map (fun v => v.map (fun q => (q : ℝ)))) lambda_mult k
          exMapM (fun idx =>
            match results.get? idx with
            | none => .error .indexError
            | some d => popVector d) mmr_selected
    (step, tr)

/-- Embedding of `max_marginal_relevance_search` (lines 337-371): requires
an embedding provider, embeds the query, and delegates. -/
noncomputable def max_marginal_relevance_search (store : Store) (engine : Engine)
    (query : String) (k fetch_k : Nat) (lambda_mult : ℝ) (tenant : Option String)
    (kwargs : Kwargs) : Except PyErr (List Doc) × List EngineCall :=
  match store.embedding with
  | some e =>
    max_marginal_relevance_search_by_vector store engine (e.embed_query (some query))
      k fetch_k lambda_mult tenant kwargs
  | none =>
    (.error (.valueError "max_marginal_relevance_search requires a suitable Embeddings object"), [])

/-- Necessary condition for Python `float(s)` to succeed: no accepted float
literal (decimal, signed, scientific, inf/nan spellings, surrounding
whitespace, underscores) ever contains a colon, so a parseable string is
colon-free. -/
def pyFloatCompatible (s : String) : Prop :=
  ∀ c ∈ s.data, c ≠ ':'

/-! ## Helper lemmas -/

lemma dlookup_append (a b : Dict) (k : String) :
    dlookup (a ++ b) k = ((dlookup a k).or (dlookup b k)) := by
  induction a with
  | nil => simp [dlookup]
  | cons hd tl ih =>
    obtain ⟨k2, v⟩ := hd
    by_cases hk : k2 = k
    · subst hk; simp [dlookup]
    · simp [dlookup, hk, ih]

lemma dlookup_filter_key (p : String → Bool) (m : Dict) (k : String) :
    dlookup (m.filter (fun q => p q.1)) k = if p k then dlookup m k else none := by
  induction m with
  | nil => simp [dlookup]
  | cons hd tl ih =>
    obtain ⟨k2, v⟩ := hd
    by_cases hp : p k2
    · by_cases hk : k2 = k
      · subst hk; simp [List.filter_cons, hp, dlookup]
      · simp [List.filter_cons, hp, dlookup, hk, ih]
    · by_cases hk : k2 = k
      · subst hk
        simp [List.filter_cons, hp, dlookup, ih]
      · simp [List.filter_cons, hp, dlookup, hk, ih]

lemma dlookup_dmerge (a b : Dict) (k : String) :
    dlookup (dmerge a b) k = ((dlookup b k).or (dlookup a k)) := by
  unfold dmerge
  rw [dlookup_append]
  have h := dlookup_filter_key (fun key => (dlookup b key).isNone) a k
  simp only at h
  rw [h]
  cases hb : dlookup b k <;> simp [hb]

lemma dlookup_derase_self (m : Dict) (k : String) :
    dlookup (derase m k) k = none := by
  unfold derase
  have h := dlookup_filter_key (fun key => key != k) m k
  simp only at h
  rw [h]
  simp

lemma dlookup_derase_ne (m : Dict) (k j : String) (h : j ≠ k) :
    dlookup (derase m k) j = dlookup m j := by
  unfold derase
  have h2 := dlookup_filter_key (fun key => key != k) m j
  simp only at h2
  rw [h2]
  simp [h]

lemma dlookup_eq_none_of_not_mem (m : Dict) (k : String)
    (h : k ∉ m.map Prod.fst) : dlookup m k = none := by
  induction m with
  | nil => rfl
  | cons hd tl ih =>
    obtain ⟨k2, v⟩ := hd
    simp only [List.map_cons, List.mem_cons] at h
    push_neg at h
    have hne : k2 ≠ k := fun he => h.1 he.symm
    simp [dlookup, hne, ih h.2]

lemma dlookup_of_mem_nodup (m : Dict) (k : String) (v : MValue)
    (hnd : (m.map Prod.fst).Nodup) (hm : (k, v) ∈ m) : dlookup m k = some v := by
  induction m with
  | nil => simp at hm
  | cons hd tl ih =>
    obtain ⟨k2, v2⟩ := hd
    simp only [List.map_cons, List.nodup_cons] at hnd
    rcases List.mem_cons.mp hm with h | h
    · injection h with h1 h2
      subst h1; subst h2
      simp [dlookup]
    · have hk2 : k2 ≠ k := by
        intro he
        subst he
        exact hnd.1 (List.mem_map.mpr ⟨(k2, v), h, rfl⟩)
      simp [dlookup, hk2, ih hnd.2 h]

lemma keys_filterMap_sublist (l : List (String × Option MValue)) :
    ((l.filterMap (fun p => p.2.map (fun v => (p.1, v)))).map Prod.fst).Sublist
      (l.map Prod.fst) := by
  induction l with
  | nil => simp
  | cons hd tl ih =>
    obtain ⟨k, o⟩ := hd
    cases o with
    | none => simpa [List.filterMap_cons] using ih.cons k
    | some v => simpa [List.filterMap_cons] using ih.cons₂ k

lemma mem_filteredMeta_names (m : MetadataReturn) (f : String) (v : MValue)
    (h : (f, v) ∈ filteredMeta m) : f ∈ metaFieldNames := by
  have hsub := keys_filterMap_sublist (metaItems m)
  have hkeys : f ∈ (filteredMeta m).map Prod.fst := List.mem_map.mpr ⟨(f, v), h, rfl⟩
  have : f ∈ (metaItems m).map Prod.fst := hsub.subset hkeys
  simpa [metaItems, metaFieldNames] using this

lemma filteredMeta_keys_nodup (m : MetadataReturn) :
    ((filteredMeta m).map Prod.fst).Nodup := by
  have hsub := keys_filterMap_sublist (metaItems m)
  refine hsub.nodup ?_
  show ((metaItems m).map Prod.fst).Nodup
  simp [metaItems]

lemma dlookup_filteredMeta_of_mem (m : MetadataReturn) (f : String) (v : MValue)
    (h : (f, v) ∈ filteredMeta m) : dlookup (filteredMeta m) f = some v :=
  dlookup_of_mem_nodup _ _ _ (filteredMeta_keys_nodup m) h

lemma dlookup_filteredMeta_none (m : MetadataReturn) (f : String)
    (h : f ∉ metaFieldNames) : dlookup (filteredMeta m) f = none := by
  refine dlookup_eq_none_of_not_mem _ _ (fun hmem => h ?_)
  obtain ⟨⟨k, v⟩, hin, hk⟩ := List.mem_map.mp hmem
  subst hk
  exact mem_filteredMeta_names m _ _ hin

lemma exMapM_ok_of_forall (f : α → Except PyErr β) (l : List α)
    (h : ∀ x ∈ l, ∃ y, f x = .ok y) : ∃ ys, exMapM f l = .ok ys := by
  induction l with
  | nil => exact ⟨[], rfl⟩
  | cons x xs ih =>
    obtain ⟨y, hy⟩ := h x (List.mem_cons_self x xs)
    obtain ⟨ys, hys⟩ := ih (fun a ha => h a (List.mem_cons_of_mem x ha))
    exact ⟨y :: ys, by simp [exMapM, hy, hys]⟩

lemma exMapM_ok_mem (f : α → Except PyErr β) (l : List α) (ys : List β)
    (h : exMapM f l = .ok ys) : ∀ y ∈ ys, ∃ x ∈ l, f x = .ok y := by
  induction l generalizing ys with
  | nil =>
    injection h with h
    subst h
    simp
  | cons x xs ih =>
    unfold exMapM at h
    cases hx : f x with
    | error e => simp [hx] at h
    | ok y0 =>
      rw [hx] at h
      cases hxs : exMapM f xs with
      | error e => simp [hxs] at h
      | ok ys0 =>
        rw [hxs] at h
        injection h with h
        subst h
        intro y hy
        rcases List.mem_cons.mp hy with h | h
        · exact ⟨x, List.mem_cons_self x xs, h ▸ hx⟩
        · obtain ⟨a, ha, hfa⟩ := ih ys0 hxs y h
          exact ⟨a, List.mem_cons_of_mem x ha, hfa⟩

lemma exMapM_ok_length (f : α → Except PyErr β) (l : List α) (ys : List β)
    (h : exMapM f l = .ok ys) : ys.length = l.length := by
  induction l generalizing ys with
  | nil =>
    injection h with h
    subst h
    rfl
  | cons x xs ih =>
    unfold exMapM at h
    cases hx : f x with
    | error e => simp [hx] at h
    | ok y0 =>
      rw [hx] at h
      cases hxs : exMapM f xs with
      | error e => simp [hxs] at h
      | ok ys0 =>
        rw [hxs] at h
        injection h with h
        subst h
        simp [ih ys0 hxs]

lemma normalizeObj_isOk (tk : String) (ru rs : Bool) (obj : EngineObject)
    (h : (dlookup obj.properties tk).isSome) :
    ∃ out, normalizeObj tk ru rs obj = .ok out := by
  unfold normalizeObj
  cases hl : dlookup obj.properties tk with
  | none => rw [hl] at h; simp at h
  | some tv =>
    cases rs <;> exact ⟨_, rfl⟩

/-! ## Claims -/

/-- C1, counterexample: with no embedding provider configured, a hybrid
search does not degenerate to a text-only hybrid query — it raises the
missing-embedding `ValueError` before issuing any engine query, even though
the engine (here: one that answers every query successfully with an empty
result) would have accepted the call. -/
theorem C1_counterexample :
    perform_search (Store.mk "Idx" "text" none false)
      (fun _ => .ok (QueryResult.mk [])) (some "q") 4 none false .hybrid none
      (Kwargs.mk none false false none)
      = (.error (.valueError embGuardMsg), []) := by
  rfl

/-- C1, amended: for every search dispatched in hybrid mode when no
embedding provider is configured, the call fails with the
missing-embedding configuration `ValueError` before any engine query is
issued (the text-only hybrid branch of the code is unreachable). -/
theorem C1_hybrid_no_embedding_fails (iname tk : String) (mt : Bool) (engine : Engine)
    (query keyword_query : Option String) (k : Nat) (return_score : Bool)
    (tenant : Option String) (kwargs : Kwargs) :
    perform_search (Store.mk iname tk none mt) engine query k keyword_query
      return_score .hybrid tenant kwargs
      = (.error (.valueError embGuardMsg), []) := by
  rfl

/-- C3: a near-text search succeeds with no embedding provider configured
(whenever the tenant scope is consistent, the engine answers the query and
every returned object carries the text key), while a near-vector search
with no embedding provider and no explicit query vector in the kwargs
fails with the missing-embedding configuration `ValueError` before any
engine query is issued. -/
theorem C3_text_ok_vector_fails :
    (∀ (iname tk : String) (mt : Bool) (engine : Engine) (query : Option String)
        (k : Nat) (keyword_query tenant : Option String) (kwargs : Kwargs)
        (objs : List EngineObject),
      tenantCheck mt tenant = none →
      (∀ c, engine c = .ok (QueryResult.mk objs)) →
      (∀ o ∈ objs, (dlookup o.properties tk).isSome) →
      ∃ outs, (perform_search (Store.mk iname tk none mt) engine query k keyword_query
        false .near_text tenant kwargs).1 = .ok outs) ∧
    (∀ (iname tk : String) (mt : Bool) (engine : Engine) (k : Nat)
        (tenant : Option String) (kwargs : Kwargs),
      kwargs.near_vector = none →
      perform_search (Store.mk iname tk none mt) engine none k none false
        .near_vector tenant kwargs
        = (.error (.valueError embGuardMsg), [])) := by
  constructor
  · intro iname tk mt engine query k keyword_query tenant kwargs objs htc heng hwf
    obtain ⟨outs, houts⟩ := exMapM_ok_of_forall
      (normalizeObj tk (adjustReturnProps tk kwargs).return_uuids false) objs
      (fun o ho => normalizeObj_isOk tk _ false o (hwf o ho))
    refine ⟨outs, ?_⟩
    simp [perform_search, dispatchCall, htc, heng, houts]
  · intro iname tk mt engine k tenant kwargs hnv
    rfl

/-- C3 witness: instantiation at a one-object engine without a tenant. -/
theorem C3_text_ok_vector_fails_witness :
    (∃ outs, (perform_search (Store.mk "Idx" "text" none false)
        (fun _ => .ok (QueryResult.mk
          [EngineObject.mk [("text", MValue.s "hello")] {} none "u1"]))
        (some "q") 4 none false .near_text none (Kwargs.mk none false false none)).1
        = .ok outs) ∧
    perform_search (Store.mk "Idx" "text" none false)
        (fun _ => .ok (QueryResult.mk [])) none 4 none false .near_vector none
        (Kwargs.mk none false false none)
      = (.error (.valueError embGuardMsg), []) := by
  constructor
  · exact C3_text_ok_vector_fails.1 "Idx" "text" false _ (some "q") 4 none none _ _
      (by decide)
      (fun c => rfl)
      (by intro o ho; simp at ho; subst ho; decide)
  · exact C3_text_ok_vector_fails.2 "Idx" "text" false _ 4 none _ (by decide)

/-- C10: `similarity_search_by_vector` with an explicitly supplied query
vector still fails, when no embedding provider is configured, with the
missing-embedding configuration `ValueError`, before issuing any engine
query — even though no embedding would need to be computed. -/
theorem C10_by_vector_requires_provider (iname tk : String) (mt : Bool) (engine : Engine)
    (embedding : List ℚ) (k : Nat) (tenant : Option String) (kwargs : Kwargs) :
    similarity_search_by_vector (Store.mk iname tk none mt) engine embedding k tenant kwargs
      = (.error (.valueError embGuardMsg), []) := by
  rfl

/-- C4: the tenant-scope acquisition used by search and delete rejects a
supplied tenant while multi-tenancy is disabled, and a missing tenant while
multi-tenancy is enabled, with the corresponding configuration
`ValueError`s; and in both `_perform_search` (whenever its earlier
embedding guard passes) and `delete` (with ids supplied) a failing tenant
check makes the operation return that error with no engine query issued. -/
theorem C4_tenant_checks :
    (∀ (mt : Bool) (tenant : Option String),
      tenant.isSome → mt = false →
      tenantCheck mt tenant = some (.valueError tenantOffMsg)) ∧
    (∀ (mt : Bool) (tenant : Option String),
      tenant = none → mt = true →
      tenantCheck mt tenant = some (.valueError tenantOnMsg)) ∧
    (∀ (store : Store) (engine : Engine) (query : Option String) (k : Nat)
        (keyword_query : Option String) (return_score : Bool)
        (search_method : SearchMethod) (tenant : Option String) (kwargs : Kwargs)
        (e : PyErr),
      (search_method = .near_text ∨ store.embedding.isSome) →
      tenantCheck store.mt tenant = some e →
      perform_search store engine query k keyword_query return_score search_method
        tenant kwargs = (.error e, [])) ∧
    (∀ (store : Store) (engine : Engine) (ids : List String) (tenant : Option String)
        (e : PyErr),
      tenantCheck store.mt tenant = some e →
      delete store engine (some ids) tenant = (.error e, [])) := by
  refine ⟨?_, ?_, ?_, ?_⟩
  · intro mt tenant hs hmt
    subst hmt
    simp [tenantCheck, hs]
  · intro mt tenant hn hmt
    subst hn; subst hmt
    simp [tenantCheck]
  · intro store engine query k keyword_query return_score search_method tenant kwargs e hg htc
    have hif : ¬(search_method ≠ SearchMethod.near_text ∧ store.embedding.isNone = true) := by
      rintro ⟨h1, h2⟩
      rcases hg with h | h
      · exact h1 h
      · rw [Option.isSome_iff_exists] at h
        obtain ⟨emb, hemb⟩ := h
        rw [hemb] at h2
        simp at h2
    simp only [perform_search, if_neg hif]
    rw [htc]
  · intro store engine ids tenant e htc
    simp only [delete]
    rw [htc]

/-- C4 witness: both rejections observed concretely for search and delete. -/
theorem C4_tenant_checks_witness :
    tenantCheck false (some "acme") = some (.valueError tenantOffMsg) ∧
    tenantCheck true none = some (.valueError tenantOnMsg) ∧
    perform_search (Store.mk "Idx" "text" none false)
      (fun _ => .ok (QueryResult.mk [])) (some "q") 4 none false .near_text
      (some "acme") (Kwargs.mk none false false none)
      = (.error (.valueError tenantOffMsg), []) ∧
    delete (Store.mk "Idx" "text" none true)
      (fun _ => .ok (QueryResult.mk [])) (some ["id1"]) none
      = (.error (.valueError tenantOnMsg), []) := by
  refine ⟨?_, ?_, ?_, ?_⟩
  · exact C4_tenant_checks.1 false (some "acme") (by decide) rfl
  · exact C4_tenant_checks.2.1 true none rfl rfl
  · exact C4_tenant_checks.2.2.1 (Store.mk "Idx" "text" none false) _ (some "q") 4 none
      false .near_text (some "acme") _ _ (Or.inl rfl) (by decide)
  · exact C4_tenant_checks.2.2.2 (Store.mk "Idx" "text" none true) _ ["id1"] none _
      (by decide)

/-- C5: for every search whose pre-flight checks pass, an engine-side query
failure (the `WeaviateQueryException` of the client) is caught and
re-raised as the single wrapper `ValueError` message "Error during query:"
followed by the underlying message; the error surfaced to the caller is
this wrapper, not the engine's exception. -/
theorem C5_query_error_wrapped (store : Store) (engine : Engine) (query : Option String)
    (k : Nat) (keyword_query : Option String) (return_score : Bool)
    (search_method : SearchMethod) (tenant : Option String) (kwargs : Kwargs)
    (msg : String) :
    (search_method = .hybrid ∨ search_method = .near_vector ∨ search_method = .near_text) →
    (search_method ≠ .near_text → store.embedding.isSome) →
    tenantCheck store.mt tenant = none →
    (∀ c, engine c = .error msg) →
    (perform_search store engine query k keyword_query return_score search_method
      tenant kwargs).1 = .error (.valueError ("Error during query: " ++ msg)) := by
  intro hm hge htc heng
  have hif : ¬(search_method ≠ SearchMethod.near_text ∧ store.embedding.isNone = true) := by
    rintro ⟨h1, h2⟩
    have := hge h1
    rw [Option.isSome_iff_exists] at this
    obtain ⟨emb, hemb⟩ := this
    rw [hemb] at h2
    simp at h2
  rcases hm with hm | hm | hm <;> subst hm
  · have := hge (by intro h; cases h)
    rw [Option.isSome_iff_exists] at this
    obtain ⟨emb, hemb⟩ := this
    simp [perform_search, if_neg hif, htc, dispatchCall, hemb, heng]
  · simp [perform_search, if_neg hif, htc, dispatchCall, heng]
  · simp [perform_search, if_neg hif, htc, dispatchCall, heng]

/-- C5 witness: a failing engine surfaces as the wrapper message on a
near-text search. -/
theorem C5_query_error_wrapped_witness :
    (perform_search (Store.mk "Idx" "text" none false)
      (fun _ => .error "backend unavailable") (some "q") 4 none false .near_text
      none (Kwargs.mk none false false none)).1
      = .error (.valueError ("Error during query: " ++ "backend unavailable")) := by
  exact C5_query_error_wrapped (Store.mk "Idx" "text" none false) _ (some "q") 4 none
    false .near_text none _ "backend unavailable"
    (Or.inr (Or.inr rfl)) (fun h => absurd rfl h) (by decide) (fun c => rfl)

lemma metaFieldNames_ne_vector {f : String} (h : f ∈ metaFieldNames) : f ≠ "vector" := by
  intro he
  subst he
  exact absurd h (by decide)

lemma metaFieldNames_ne_uuid {f : String} (h : f ∈ metaFieldNames) : f ≠ "uuid" := by
  intro he
  subst he
  exact absurd h (by decide)

lemma dlookup_vecEntry_ne (ov : Option (List ℚ)) (key : String) (h : key ≠ "vector") :
    dlookup (match ov with
      | some v => [("vector", MValue.vecQ v)]
      | none => []) key = none := by
  cases ov <;> simp [dlookup, Ne.symm h]

lemma dlookup_uuidEntry_ne (ru : Bool) (u : String) (key : String) (h : key ≠ "uuid") :
    dlookup (if ru then [("uuid", MValue.s u)] else []) key = none := by
  cases ru <;> simp [dlookup, Ne.symm h]

lemma normalizeObj_doc_eq (tk : String) (ru : Bool) (obj : EngineObject) (tv : MValue)
    (hl : dlookup obj.properties tk = some tv) :
    normalizeObj tk ru false obj = .ok (.doc ⟨tv,
      dmerge (dmerge (dmerge (derase obj.properties tk) (filteredMeta obj.metadata))
        (match obj.vector with
          | some v => [("vector", MValue.vecQ v)]
          | none => []))
        (if ru then [("uuid", MValue.s obj.uuid)] else [])⟩) := by
  unfold normalizeObj
  rw [hl]
  rfl

/-- C6: for every engine-returned object normalized by the search result
loop, the text-key property becomes the document content and is removed
from the document's metadata; every non-null engine metadata field is
merged into the metadata; and every other property is merged as well
(whenever the text key does not collide with an engine metadata field name
or a reserved key, which holds for the default key "text"). -/
theorem C6_result_normalization (tk : String) (ru : Bool) (obj : EngineObject)
    (tv : MValue)
    (hl : dlookup obj.properties tk = some tv)
    (hn : tk ∉ metaFieldNames) (hv : tk ≠ "vector") (hu : tk ≠ "uuid") :
    ∃ d, normalizeObj tk ru false obj = .ok (.doc d) ∧
      d.page_content = tv ∧
      dlookup d.metadata tk = none ∧
      (∀ f v, (f, v) ∈ filteredMeta obj.metadata → dlookup d.metadata f = some v) ∧
      (∀ p v2, dlookup obj.properties p = some v2 → p ≠ tk → p ∉ metaFieldNames →
        p ≠ "vector" → p ≠ "uuid" → dlookup d.metadata p = some v2) := by
  refine ⟨_, normalizeObj_doc_eq tk ru obj tv hl, rfl, ?_, ?_, ?_⟩
  · rw [dlookup_dmerge, dlookup_uuidEntry_ne _ _ _ hu,
      dlookup_dmerge, dlookup_vecEntry_ne _ _ hv,
      dlookup_dmerge, dlookup_filteredMeta_none _ _ hn,
      dlookup_derase_self]
    rfl
  · intro f v hfm
    have hf := mem_filteredMeta_names _ _ _ hfm
    rw [dlookup_dmerge, dlookup_uuidEntry_ne _ _ _ (metaFieldNames_ne_uuid hf),
      dlookup_dmerge, dlookup_vecEntry_ne _ _ (metaFieldNames_ne_vector hf),
      dlookup_dmerge, dlookup_filteredMeta_of_mem _ _ _ hfm]
    rfl
  · intro p v2 hp hptk hpn hpv hpu
    rw [dlookup_dmerge, dlookup_uuidEntry_ne _ _ _ hpu,
      dlookup_dmerge, dlookup_vecEntry_ne _ _ hpv,
      dlookup_dmerge, dlookup_filteredMeta_none _ _ hpn,
      dlookup_derase_ne _ _ _ hptk, hp]
    rfl

/-- C6 witness: the round-trip object — stored content "hello" with
metadata source, retrieved with content "hello", metadata carrying
the source entry and no text-key entry. -/
theorem C6_result_normalization_witness :
    ∃ d, normalizeObj "text" false false
        (EngineObject.mk [("text", MValue.s "hello"), ("source", MValue.s "x")] {} none "u1")
        = .ok (.doc d) ∧
      d.page_content = MValue.s "hello" ∧
      dlookup d.metadata "text" = none ∧
      dlookup d.metadata "source" = some (MValue.s "x") := by
  obtain ⟨d, heq, hc, htk, _, hprops⟩ := C6_result_normalization "text" false
    (EngineObject.mk [("text", MValue.s "hello"), ("source", MValue.s "x")] {} none "u1")
    (MValue.s "hello") (by decide) (by decide) (by decide) (by decide)
  exact ⟨d, heq, hc, htk,
    hprops "source" (MValue.s "x") (by decide) (by decide) (by decide) (by decide) (by decide)⟩

lemma perform_search_ok_elem (store : Store) (engine : Engine) (query : Option String)
    (k : Nat) (keyword_query : Option String) (return_score : Bool)
    (search_method : SearchMethod) (tenant : Option String) (kwargs : Kwargs)
    (outs : List SearchOut)
    (h : (perform_search store engine query k keyword_query return_score search_method
      tenant kwargs).1 = .ok outs) :
    ∀ out ∈ outs, ∃ obj, normalizeObj store.text_key
      (adjustReturnProps store.text_key kwargs).return_uuids return_score obj = .ok out := by
  unfold perform_search at h
  split at h
  · simp at h
  · split at h
    · simp at h
    · dsimp only at h
      split at h
      · simp at h
      · split at h
        · simp at h
        · split at h
          · simp at h
          · dsimp only at h
            injection h with h
            subst h
            intro out hout
            rename_i heq
            obtain ⟨obj, _, hobj⟩ := exMapM_ok_mem _ _ _ heq out hout
            exact ⟨obj, hobj⟩

lemma normalizeObj_scored_shape (tk : String) (ru : Bool) (obj : EngineObject)
    (out : SearchOut) (h : normalizeObj tk ru true obj = .ok out) :
    ∃ d, out = .scored d
      (pyStrOpt obj.metadata.score ++ ": " ++ pyStrOpt obj.metadata.explain_score) := by
  unfold normalizeObj at h
  split at h
  · simp at h
  · simp only [if_pos rfl] at h
    injection h with h
    exact ⟨_, h.symm⟩

lemma not_pyFloatCompatible_concat (a b : String) :
    ¬ pyFloatCompatible (a ++ ": " ++ b) := by
  intro h
  have hmem : (':' : Char) ∈ (a ++ ": " ++ b).data := by
    rw [String.data_append, String.data_append]
    refine List.mem_append.mpr (Or.inl (List.mem_append.mpr (Or.inr ?_)))
    decide
  exact h ':' hmem rfl

/-- C7: every result of a search performed with scoring requested carries a
single score value obtained by concatenating the engine relevance and the
explanation string with ": " in between; that value contains a colon, which
no string parseable as a Python float contains. -/
theorem C7_score_not_numeric (store : Store) (engine : Engine) (query : String)
    (k : Nat) (search_method : SearchMethod) (tenant : Option String) (kwargs : Kwargs)
    (outs : List SearchOut)
    (h : (similarity_search_with_score store engine query k search_method tenant
      kwargs).1 = .ok outs) :
    ∀ out ∈ outs, ∃ d sc, out = .scored d sc ∧
      (∃ md : MetadataReturn, sc = pyStrOpt md.score ++ ": " ++ pyStrOpt md.explain_score) ∧
      ¬ pyFloatCompatible sc := by
  intro out hout
  obtain ⟨obj, hobj⟩ := perform_search_ok_elem store engine (some query) k none true
    search_method tenant kwargs outs h out hout
  obtain ⟨d, hd⟩ := normalizeObj_scored_shape _ _ _ _ hobj
  exact ⟨d, _, hd, ⟨obj.metadata, rfl⟩, not_pyFloatCompatible_concat _ _⟩

/-- C7 witness: one concrete scored search — the score value is the string
"1: None", not a float. -/
theorem C7_score_not_numeric_witness :
    (similarity_search_with_score (Store.mk "Idx" "text" none false)
      (fun _ => .ok (QueryResult.mk
        [EngineObject.mk [("text", MValue.s "hello")]
          { score := some (MValue.num 1) } none "u1"]))
      "q" 4 .near_text none (Kwargs.mk none false false none)).1
      = .ok [.scored ⟨MValue.s "hello", [("score", MValue.num 1)]⟩ "1: None"] ∧
    (∃ d sc, SearchOut.scored ⟨MValue.s "hello", [("score", MValue.num 1)]⟩ "1: None"
        = .scored d sc ∧
      (∃ md : MetadataReturn, sc = pyStrOpt md.score ++ ": " ++ pyStrOpt md.explain_score) ∧
      ¬ pyFloatCompatible sc) := by
  have h1 : (similarity_search_with_score (Store.mk "Idx" "text" none false)
      (fun _ => .ok (QueryResult.mk
        [EngineObject.mk [("text", MValue.s "hello")]
          { score := some (MValue.num 1) } none "u1"]))
      "q" 4 .near_text none (Kwargs.mk none false false none)).1
      = .ok [.scored ⟨MValue.s "hello", [("score", MValue.num 1)]⟩ "1: None"] := by
    rfl
  refine ⟨h1, ?_⟩
  exact C7_score_not_numeric (Store.mk "Idx" "text" none false) _ "q" 4 .near_text none
    (Kwargs.mk none false false none) _ h1 _ (List.mem_singleton.mpr rfl)

/-- C8: the default score normalizer is the logistic transform of the
clamped input; it is monotonically non-decreasing, every output lies in
the interval from 0 to 1, and the image of 0 is exactly one half. -/
theorem C8_normalizer_properties :
    (∀ a b : ℝ, a ≤ b → _default_score_normalizer a ≤ _default_score_normalizer b) ∧
    (∀ x : ℝ, 0 ≤ _default_score_normalizer x ∧ _default_score_normalizer x ≤ 1) ∧
    _default_score_normalizer 0 = 1 / 2 := by
  refine ⟨?_, ?_, ?_⟩
  · intro a b hab
    unfold _default_score_normalizer
    have hclamp : min (max a (-709)) 709 ≤ min (max b (-709)) 709 :=
      min_le_min (max_le_max hab le_rfl) le_rfl
    have hexp : Real.exp (min (max a (-709)) 709) ≤ Real.exp (min (max b (-709)) 709) :=
      Real.exp_le_exp.mpr hclamp
    have hpos : (0 : ℝ) < 1 + Real.exp (min (max a (-709)) 709) := by
      have := Real.exp_pos (min (max a (-709)) 709)
      linarith
    have hdiv : 1 / (1 + Real.exp (min (max b (-709)) 709))
        ≤ 1 / (1 + Real.exp (min (max a (-709)) 709)) :=
      one_div_le_one_div_of_le hpos (by linarith)
    linarith
  · intro x
    unfold _default_score_normalizer
    have hpos : (0 : ℝ) < 1 + Real.exp (min (max x (-709)) 709) := by
      have := Real.exp_pos (min (max x (-709)) 709)
      linarith
    have h1 : 1 / (1 + Real.exp (min (max x (-709)) 709)) ≤ 1 := by
      rw [div_le_one hpos]
      have := Real.exp_pos (min (max x (-709)) 709)
      linarith
    have h2 : 0 < 1 / (1 + Real.exp (min (max x (-709)) 709)) := by positivity
    constructor <;> linarith
  · unfold _default_score_normalizer
    have hc : min (max (0 : ℝ) (-709)) 709 = 0 := by
      rw [max_eq_left (by norm_num), min_eq_left (by norm_num)]
    rw [hc, Real.exp_zero]
    norm_num

/-- C8 witness: monotonicity applied at 0 and 1, boundedness at -3, and the
value at 0. -/
theorem C8_normalizer_properties_witness :
    _default_score_normalizer 0 ≤ _default_score_normalizer 1 ∧
    (0 ≤ _default_score_normalizer (-3) ∧ _default_score_normalizer (-3) ≤ 1) ∧
    _default_score_normalizer 0 = 1 / 2 :=
  ⟨C8_normalizer_properties.1 0 1 (by norm_num),
   C8_normalizer_properties.2.1 (-3),
   C8_normalizer_properties.2.2⟩

lemma mdAt_ok (metadatas : Option (List Dict)) (i : Nat)
    (h : ∀ ms, metadatas = some ms → i < ms.length) :
    ∃ md, mdAt metadatas i = .ok md := by
  cases hmm : metadatas with
  | none => exact ⟨[], rfl⟩
  | some ms =>
    cases hg : ms.get? i with
    | none =>
      rw [List.get?_eq_get (h ms hmm)] at hg
      exact absurd hg (by simp)
    | some m =>
      rw [List.get?_eq_getElem?] at hg
      exact ⟨m, by simp [mdAt, hg]⟩

lemma oidAt_ok (uuids idsKw : Option (List String)) (fresh : Nat → String) (i : Nat)
    (hu : ∀ us, uuids = some us → i < us.length)
    (hi : ∀ l, idsKw = some l → i < l.length) :
    oidAt uuids idsKw fresh i = .ok (expectedId uuids idsKw fresh i) := by
  cases huu : uuids with
  | some us =>
    cases hg : us.get? i with
    | none =>
      rw [List.get?_eq_get (hu us huu)] at hg
      exact absurd hg (by simp)
    | some u =>
      rw [List.get?_eq_getElem?] at hg
      simp [oidAt, expectedId, hg, List.getD]
  | none =>
    cases hii : idsKw with
    | some l =>
      cases hg : l.get? i with
      | none =>
        rw [List.get?_eq_get (hi l hii)] at hg
        exact absurd hg (by simp)
      | some u =>
        rw [List.get?_eq_getElem?] at hg
        simp [oidAt, expectedId, hg, List.getD]
    | none => rfl

lemma vecAt_ok (embs : Option (List (List ℚ))) (i : Nat)
    (h : ∀ es, embs = some es → es = [] ∨ i < es.length) :
    ∃ v, vecAt embs i = .ok v := by
  cases hee : embs with
  | none => exact ⟨none, rfl⟩
  | some es =>
    rcases h es hee with he | he
    · subst he
      exact ⟨none, rfl⟩
    · have hne : es.isEmpty = false := by
        cases es with
        | nil => simp at he
        | cons a as => rfl
      cases hg : es.get? i with
      | none =>
        rw [List.get?_eq_get he] at hg
        exact absurd hg (by simp)
      | some v =>
        rw [List.get?_eq_getElem?] at hg
        exact ⟨some v, by simp [vecAt, hne, hg]⟩

lemma addLoop_ok (iname tk : String) (metadatas : Option (List Dict))
    (uuids idsKw : Option (List String)) (embs : Option (List (List ℚ)))
    (fresh : Nat → String) (tenant : Option String) :
    ∀ (rest : List String) (i : Nat),
    (∀ ms, metadatas = some ms → ∀ j, j < rest.length → i + j < ms.length) →
    (∀ us, uuids = some us → ∀ j, j < rest.length → i + j < us.length) →
    (∀ l, idsKw = some l → ∀ j, j < rest.length → i + j < l.length) →
    (∀ es, embs = some es → es = [] ∨ ∀ j, j < rest.length → i + j < es.length) →
    ∃ objs ids,
      addLoop iname tk metadatas uuids idsKw embs fresh tenant i rest = .ok (objs, ids) ∧
      ids.length = rest.length ∧
      ∀ j, j < rest.length → ids.getD j "" = expectedId uuids idsKw fresh (i + j) := by
  intro rest
  induction rest with
  | nil =>
    intro i _ _ _ _
    exact ⟨[], [], rfl, rfl, by intro j hj; simp at hj⟩
  | cons t rest ih =>
    intro i hm hu hi he
    obtain ⟨md, hmd⟩ := mdAt_ok metadatas i
      (fun ms hms => by simpa using hm ms hms 0 (by simp))
    have hoid := oidAt_ok uuids idsKw fresh i
      (fun us hus => by simpa using hu us hus 0 (by simp))
      (fun l hl => by simpa using hi l hl 0 (by simp))
    obtain ⟨vec, hvec⟩ := vecAt_ok embs i
      (fun es hes => by
        rcases he es hes with h | h
        · exact Or.inl h
        · exact Or.inr (by simpa using h 0 (by simp)))
    obtain ⟨objs, ids, hrec, hlen, hgd⟩ := ih (i + 1)
      (fun ms hms j hj => by
        have := hm ms hms (j + 1) (by simpa using hj)
        omega)
      (fun us hus j hj => by
        have := hu us hus (j + 1) (by simpa using hj)
        omega)
      (fun l hl j hj => by
        have := hi l hl (j + 1) (by simpa using hj)
        omega)
      (fun es hes => by
        rcases he es hes with h | h
        · exact Or.inl h
        · refine Or.inr (fun j hj => ?_)
          have := h (j + 1) (by simpa using hj)
          omega)
    refine ⟨⟨iname,
        dmerge [(tk, MValue.s t)] (md.map (fun p => (p.1, _json_serializable p.2))),
        expectedId uuids idsKw fresh i, vec, tenant⟩ :: objs,
      expectedId uuids idsKw fresh i :: ids, ?_, by simp [hlen], ?_⟩
    · simp only [addLoop]
      rw [hmd, hoid, hvec, hrec]
    · intro j hj
      cases j with
      | zero => simp
      | succ j2 =>
        have hj2 : j2 < rest.length := by simpa using hj
        have := hgd j2 hj2
        simpa [Nat.add_comm, Nat.add_assoc, Nat.add_left_comm] using this

/-- C2: `add_texts` with N input texts (and, when given, index-aligned
metadata of length N and covering id kwargs) returns exactly N ids,
positionally aligned with the input texts (the `uuids` kwarg, else the
`ids` kwarg, else the i-th fresh uuid), and the result does not depend on
the set of failed batch objects: failures are only logged, so the ids of
failed objects are still included in the returned list and no error is
raised. -/
theorem C2_add_texts_ids (store : Store) (tenants : List String) (texts : List String)
    (metadatas : Option (List Dict)) (tenant : Option String)
    (uuids idsKw : Option (List String)) (fresh : Nat → String)
    (failed_objects : List String)
    (hm : ∀ ms, metadatas = some ms → ms.length = texts.length)
    (hu : ∀ us, uuids = some us → texts.length ≤ us.length)
    (hi : ∀ l, idsKw = some l → texts.length ≤ l.length)
    (ht : pythonTruthy tenant = true → store.mt = true)
    (he : ∀ e, store.embedding = some e → (e.embed_documents texts).length = texts.length) :
    ∃ objs ids,
      add_texts store tenants texts metadatas tenant uuids idsKw fresh failed_objects
        = .ok (objs, ids) ∧
      ids.length = texts.length ∧
      (∀ j, j < texts.length → ids.getD j "" = expectedId uuids idsKw fresh j) ∧
      (∀ failed2, add_texts store tenants texts metadatas tenant uuids idsKw fresh failed2
        = add_texts store tenants texts metadatas tenant uuids idsKw fresh failed_objects) := by
  obtain ⟨objs, ids, hal, hlen, hgd⟩ := addLoop_ok store.index_name store.text_key
    metadatas uuids idsKw (store.embedding.map (fun e => e.embed_documents texts))
    fresh tenant texts 0
    (fun ms hms j hj => by
      have := hm ms hms
      omega)
    (fun us hus j hj => by
      have := hu us hus
      omega)
    (fun l hl j hj => by
      have := hi l hl
      omega)
    (fun es hes => by
      cases hemb : store.embedding with
      | none => rw [hemb] at hes; exact absurd hes (by simp)
      | some e =>
        rw [hemb] at hes
        simp only [Option.map_some'] at hes
        injection hes with hes
        subst hes
        have := he e hemb
        exact Or.inr (fun j hj => by omega))
  have hpre : add_texts store tenants texts metadatas tenant uuids idsKw fresh
      failed_objects = addLoop store.index_name store.text_key metadatas uuids idsKw
        (store.embedding.map (fun e => e.embed_documents texts)) fresh tenant 0 texts := by
    unfold add_texts
    cases hpt : pythonTruthy tenant with
    | false => simp [hpt]
    | true =>
      have hmt := ht hpt
      simp [hpt, _does_tenant_exist, hmt]
  refine ⟨objs, ids, ?_, hlen, ?_, ?_⟩
  · rw [hpre, hal]
  · intro j hj
    simpa using hgd j hj
  · intro failed2
    rfl

/-- C2 witness: two texts with aligned metadata, one reported batch
failure — still two ids, in input order, independent of the failure list. -/
theorem C2_add_texts_ids_witness :
    ∃ objs ids,
      add_texts (Store.mk "Idx" "text" none false) [] ["a", "b"]
        (some [[("source", MValue.s "x")], []]) none none none
        (fun i => "fresh" ++ toString i) ["failure: u0"]
        = .ok (objs, ids) ∧
      ids.length = 2 ∧
      (∀ j, j < 2 →
        ids.getD j "" = expectedId none none (fun i => "fresh" ++ toString i) j) ∧
      (∀ failed2, add_texts (Store.mk "Idx" "text" none false) [] ["a", "b"]
          (some [[("source", MValue.s "x")], []]) none none none
          (fun i => "fresh" ++ toString i) failed2
        = add_texts (Store.mk "Idx" "text" none false) [] ["a", "b"]
          (some [[("source", MValue.s "x")], []]) none none none
          (fun i => "fresh" ++ toString i) ["failure: u0"]) := by
  have h := C2_add_texts_ids (Store.mk "Idx" "text" none false) [] ["a", "b"]
    (some [[("source", MValue.s "x")], []]) none none none
    (fun i => "fresh" ++ toString i) ["failure: u0"]
    (by intro ms hms; injection hms with hms; subst hms; rfl)
    (by intro us hus; exact Option.noConfusion hus)
    (by intro l hl; exact Option.noConfusion hl)
    (by intro hpt; exact absurd hpt (by decide))
    (by intro e hee; exact Option.noConfusion hee)
  simpa using h

lemma argmaxBy_mem (f : Nat → ℝ) : ∀ (l : List Nat) (j : Nat),
    argmaxBy f l = some j → j ∈ l := by
  intro l
  induction l with
  | nil => intro j h; exact absurd h (by simp [argmaxBy])
  | cons i is ih =>
    intro j h
    unfold argmaxBy at h
    cases ha : argmaxBy f is with
    | none =>
      rw [ha] at h
      injection h with h
      subst h
      exact List.mem_cons_self i is
    | some j2 =>
      rw [ha] at h
      dsimp only at h
      by_cases hc : f i < f j2
      · rw [if_pos hc] at h
        injection h with h
        subst h
        exact List.mem_cons_of_mem i (ih _ ha)
      · rw [if_neg hc] at h
        injection h with h
        subst h
        exact List.mem_cons_self i is

lemma mmrLoop_lt (simQ : Nat → ℝ) (sim : Nat → Nat → ℝ) (lam : ℝ) (n : Nat) :
    ∀ (fuel : Nat) (unsel sel : List Nat),
    (∀ i ∈ unsel, i < n) → (∀ i ∈ sel, i < n) →
    ∀ i ∈ mmrLoop simQ sim lam fuel unsel sel, i < n := by
  intro fuel
  induction fuel with
  | zero => intro unsel sel _ hsel i hi; exact hsel i hi
  | succ fuel ih =>
    intro unsel sel hunsel hsel i hi
    unfold mmrLoop at hi
    cases ha : argmaxBy (fun i2 =>
        lam * simQ i2 - (1 - lam) * maxSimToSelected sim sel i2) unsel with
    | none =>
      rw [ha] at hi
      exact hsel i hi
    | some j =>
      rw [ha] at hi
      refine ih (unsel.erase j) (sel ++ [j])
        (fun a ha2 => hunsel a (List.erase_subset _ _ ha2))
        (fun a ha2 => ?_) i hi
      rcases List.mem_append.mp ha2 with h | h
      · exact hsel a h
      · rw [List.mem_singleton.mp h]
        exact hunsel j (argmaxBy_mem _ _ _ ha)

lemma maximal_marginal_relevance_lt (q : List ℝ) (es : List (List ℝ)) (lam : ℝ)
    (k : Nat) : ∀ i ∈ maximal_marginal_relevance q es lam k, i < es.length := by
  intro i hi
  exact mmrLoop_lt _ _ _ _ k (List.range es.length) []
    (fun a ha => List.mem_range.mp ha) (fun a ha => absurd ha (by simp)) i hi

lemma adjustReturnProps_include_vector (tk : String) (kw : Kwargs) :
    (adjustReturnProps tk kw).include_vector = kw.include_vector := by
  unfold adjustReturnProps
  cases kw.return_properties with
  | none => rfl
  | some rp => by_cases h : tk ∈ rp <;> simp [h]

lemma adjustReturnProps_near_vector (tk : String) (kw : Kwargs) :
    (adjustReturnProps tk kw).near_vector = kw.near_vector := by
  unfold adjustReturnProps
  cases kw.return_properties with
  | none => rfl
  | some rp => by_cases h : tk ∈ rp <;> simp [h]

lemma normalizeObj_vector_lookup (tk : String) (ru : Bool) (obj : EngineObject)
    (tv : MValue) (v : List ℚ) (htv : dlookup obj.properties tk = some tv)
    (hv : obj.vector = some v) (out : SearchOut)
    (hout : normalizeObj tk ru false obj = .ok out) :
    ∃ d, out = .doc d ∧ dlookup d.metadata "vector" = some (MValue.vecQ v) := by
  rw [normalizeObj_doc_eq tk ru obj tv htv] at hout
  injection hout with hout
  refine ⟨_, hout.symm, ?_⟩
  rw [dlookup_dmerge, dlookup_uuidEntry_ne _ _ _ (by decide), dlookup_dmerge, hv]
  simp [dlookup]

/-- C9: for every MMR search by vector whose pre-flight checks pass and
whose engine returns objects carrying the text key and a vector, the
candidates are fetched by a single near-vector query with limit `fetch_k`
and vectors included, and the reserved vector metadata key is removed from
every returned document: no document coming out of the MMR path carries a
vector in its metadata. -/
theorem C9_mmr_strips_vectors (store : Store) (engine : Engine) (embedding : List ℚ)
    (k fetch_k : Nat) (lambda_mult : ℝ) (tenant : Option String) (kwargs : Kwargs)
    (objs : List EngineObject)
    (hemb : store.embedding.isSome)
    (htc : tenantCheck store.mt tenant = none)
    (heng : ∀ c, engine c = .ok (QueryResult.mk objs))
    (hwf : ∀ o ∈ objs, (dlookup o.properties store.text_key).isSome)
    (hvec : ∀ o ∈ objs, o.vector.isSome) :
    ∃ docs kw2,
      max_marginal_relevance_search_by_vector store engine embedding k fetch_k
        lambda_mult tenant kwargs = (.ok docs, [.nearVector fetch_k kw2]) ∧
      kw2.include_vector = true ∧
      kw2.near_vector = some embedding ∧
      ∀ d ∈ docs, dlookup d.metadata "vector" = none := by
  obtain ⟨emb0, hemb0⟩ := Option.isSome_iff_exists.mp hemb
  obtain ⟨outs, houts⟩ := exMapM_ok_of_forall
    (normalizeObj store.text_key (adjustReturnProps store.text_key
      { kwargs with include_vector := true, near_vector := some embedding }).return_uuids
      false)
    objs (fun o ho => normalizeObj_isOk _ _ _ o (hwf o ho))
  have houtshape : ∀ out ∈ outs, ∃ d v, out = .doc d ∧
      dlookup d.metadata "vector" = some (MValue.vecQ v) := by
    intro out hout
    obtain ⟨obj, hobjmem, hobj⟩ := exMapM_ok_mem _ _ _ houts out hout
    obtain ⟨v, hv⟩ := Option.isSome_iff_exists.mp (hvec obj hobjmem)
    obtain ⟨tv, htv⟩ := Option.isSome_iff_exists.mp (hwf obj hobjmem)
    obtain ⟨d, hd, hl⟩ := normalizeObj_vector_lookup _ _ obj tv v htv hv out hobj
    exact ⟨d, v, hd, hl⟩
  obtain ⟨results, hres⟩ := exMapM_ok_of_forall asDoc outs (fun out hout => by
    obtain ⟨d, v, hd, _⟩ := houtshape out hout
    exact ⟨d, by rw [hd]; rfl⟩)
  have hresvec : ∀ d ∈ results, ∃ v, dlookup d.metadata "vector" = some (MValue.vecQ v) := by
    intro d hd
    obtain ⟨out, houtmem, hout⟩ := exMapM_ok_mem _ _ _ hres d hd
    obtain ⟨d2, v, hd2, hl⟩ := houtshape out houtmem
    rw [hd2] at hout
    injection hout with hout
    subst hout
    exact ⟨v, hl⟩
  obtain ⟨embeddings, hembs⟩ := exMapM_ok_of_forall getVecQ results (fun d hd => by
    obtain ⟨v, hl⟩ := hresvec d hd
    exact ⟨v, by simp [getVecQ, hl]⟩)
  have hlen2 := exMapM_ok_length _ _ _ hembs
  have hsel : ∀ idx ∈ maximal_marginal_relevance (embedding.map (fun q => (q : ℝ)))
      (embeddings.map (fun v => v.map (fun q => (q : ℝ)))) lambda_mult k,
      idx < results.length := by
    intro idx hidx
    have := maximal_marginal_relevance_lt _ _ _ _ idx hidx
    rw [List.length_map] at this
    omega
  obtain ⟨docs, hdocs⟩ := exMapM_ok_of_forall
    (fun idx => match results.get? idx with
      | none => Except.error PyErr.indexError
      | some d => popVector d)
    (maximal_marginal_relevance (embedding.map (fun q => (q : ℝ)))
      (embeddings.map (fun v => v.map (fun q => (q : ℝ)))) lambda_mult k)
    (fun idx hidx => by
      have hlt := hsel idx hidx
      cases hg : results.get? idx with
      | none =>
        rw [List.get?_eq_get hlt] at hg
        exact absurd hg (by simp)
      | some d =>
        obtain ⟨v, hl⟩ := hresvec d (List.get?_mem hg)
        rw [List.get?_eq_getElem?] at hg
        exact ⟨Doc.mk d.page_content (derase d.metadata "vector"),
          by simp [hg, popVector, hl]⟩)
  have hstrip : ∀ doc ∈ docs, dlookup doc.metadata "vector" = none := by
    intro doc hdoc
    obtain ⟨idx, _, hf⟩ := exMapM_ok_mem _ _ _ hdocs doc hdoc
    cases hg : results.get? idx with
    | none => rw [hg] at hf; exact absurd hf (by simp)
    | some d =>
      rw [hg] at hf
      simp only [popVector] at hf
      cases hl : dlookup d.metadata "vector" with
      | none => simp only [hl] at hf; exact absurd hf (by simp)
      | some v =>
        simp only [hl] at hf
        injection hf with hf
        rw [← hf]
        exact dlookup_derase_self d.metadata "vector"
  have hps : perform_search store engine none fetch_k none false .near_vector tenant
      { kwargs with include_vector := true, near_vector := some embedding }
      = (.ok outs, [.nearVector fetch_k { adjustReturnProps store.text_key
          { kwargs with include_vector := true, near_vector := some embedding } with
          return_uuids := false }]) := by
    simp [perform_search, dispatchCall, hemb0, htc, heng, houts]
  refine ⟨docs, { adjustReturnProps store.text_key
      { kwargs with include_vector := true, near_vector := some embedding } with
      return_uuids := false }, ?_, ?_, ?_, hstrip⟩
  · unfold max_marginal_relevance_search_by_vector
    rw [hps]
    dsimp only
    rw [hres]
    dsimp only
    rw [hembs]
    dsimp only
    rw [hdocs]
  · simp [adjustReturnProps_include_vector]
  · simp [adjustReturnProps_near_vector]

/-- C9 witness: one concrete MMR search over a two-object candidate set. -/
theorem C9_mmr_strips_vectors_witness :
    ∃ docs kw2,
      max_marginal_relevance_search_by_vector
        (Store.mk "Idx" "text"
          (some (Embedder.mk (fun _ => [1]) (fun ts => ts.map (fun _ => [1])))) false)
        (fun _ => .ok (QueryResult.mk
          [EngineObject.mk [("text", MValue.s "a")] {} (some [1, 0]) "u1",
           EngineObject.mk [("text", MValue.s "b")] {} (some [0, 1]) "u2"]))
        [1, 0] 1 5 (1 / 2 : ℝ) none (Kwargs.mk none false false none)
        = (.ok docs, [.nearVector 5 kw2]) ∧
      kw2.include_vector = true ∧
      kw2.near_vector = some [1, 0] ∧
      ∀ d ∈ docs, dlookup d.metadata "vector" = none := by
  exact C9_mmr_strips_vectors
    (Store.mk "Idx" "text"
      (some (Embedder.mk (fun _ => [1]) (fun ts => ts.map (fun _ => [1])))) false)
    _ [1, 0] 1 5 (1 / 2 : ℝ) none (Kwargs.mk none false false none)
    [EngineObject.mk [("text", MValue.s "a")] {} (some [1, 0]) "u1",
     EngineObject.mk [("text", MValue.s "b")] {} (some [0, 1]) "u2"]
    rfl (by decide) (fun c => rfl)
    (by intro o ho; fin_cases ho <;> decide)
    (by intro o ho; fin_cases ho <;> decide)

end LWV
